import Mathlib

/-!
Verification of the QR-code identity and lifecycle core of the
Railway-Backend repository (FastAPI + MongoDB, Python).

Python strings are modelled as `List Char` (`PyStr`).  Python's
`str.split("_")`, `str.startswith`, `str.isdigit` and `int(...)` are
embedded below.  `str.isdigit` accepts more than the decimal digits: it
also accepts every Unicode character with Numeric_Type=Digit or
Numeric_Type=Decimal.  The model covers the ASCII digits plus the ten
superscript digits (U+2070, U+00B9, U+00B2, U+00B3, U+2074..U+2079),
which is exact on ASCII input and on the superscript characters used
below; `int(...)` accepts the decimal digits and raises `ValueError` on
digit-but-not-decimal characters such as the superscripts, which the
model reproduces.  Theorems quantifying over arbitrary strings either
carry an explicit all-ASCII hypothesis (where the model provably agrees
with CPython) or evaluate the model only on modelled characters.
MD5 is not re-implemented: every theorem
that touches the fingerprint is parametrised by the `hexdigest` function
`md5hex : PyStr -> PyStr` together with the hypothesis `MD5Hex md5hex`
recording the two facts the code relies on (a hexdigest is 32 characters
long and consists of lower-case hexadecimal characters only).
`time.time()` (whole seconds) is an explicit `timestamp : Nat` parameter.
-/

abbrev PyStr := List Char

/-- Model of Python `s.split(sep)` for a one-character separator
(`data.split("_")` in `app/utils/qr_code.py`). -/
def pySplit (sep : Char) : PyStr → List PyStr
  | [] => [[]]
  | c :: cs =>
    match pySplit sep cs with
    | [] => [[]]
    | p :: ps => if c = sep then [] :: p :: ps else (c :: p) :: ps

/-- Model of Python `s.startswith(pre)`. -/
def pyStartsWith (pre s : PyStr) : Bool := s.take pre.length == pre

/-- The ten Unicode superscript digits: characters accepted by Python
`str.isdigit` (Numeric_Type=Digit) but rejected by `int(...)`. -/
def superscriptDigit (c : Char) : Bool :=
  c == '⁰' || c == '¹' || c == '²' || c == '³' || c == '⁴' ||
  c == '⁵' || c == '⁶' || c == '⁷' || c == '⁸' || c == '⁹'

/-- Per-character model of Python `str.isdigit`: the decimal digits plus
the superscript digits.  (CPython additionally accepts other Unicode
digit characters, e.g. other scripts' decimals; they are outside the
character set this development evaluates the model on — all-ASCII
hypotheses exclude them.) -/
def pyDigitChar (c : Char) : Bool := c.isDigit || superscriptDigit c

/-- Model of Python `s.isdigit()`: non-empty and all characters digits
in the sense of `pyDigitChar`. -/
def pyIsDigit (s : PyStr) : Bool := !s.isEmpty && s.all pyDigitChar

/-- Decimal digits of `n`, most significant first, with explicit fuel
(the fuel is adequate as soon as `n < fuel`). -/
def natDigits : Nat → Nat → List Char
  | 0, _ => []
  | fuel + 1, n =>
    if n < 10 then [Nat.digitChar n]
    else natDigits fuel (n / 10) ++ [Nat.digitChar (n % 10)]

/-- Model of Python `str(n)` for a non-negative integer `n`. -/
def pyStr (n : Nat) : PyStr := natDigits (n + 1) n

/-- Model of the Python format specifier `f"\x7bn:06d\x7d"` for `n >= 0`:
the decimal digits of `n`, left-padded with `0` to width 6 (the
padding count `6 - len` is `0` when the plain representation is
already at least 6 characters long). -/
def pad6 (n : Nat) : PyStr := List.replicate (6 - (pyStr n).length) '0' ++ pyStr n

/-- Numeric value of a digit character. -/
def digitVal (c : Char) : Nat := c.toNat - '0'.toNat

/-- Decimal value of a digit string (Horner fold). -/
def decodeDigits (s : PyStr) : Nat := s.foldl (fun a c => a * 10 + digitVal c) 0

/-- Model of Python `int(s)` on the strings that reach it in
`extract_qr_code_info`: it succeeds exactly on non-empty strings of
decimal digits; `none` models the `ValueError` raised on anything else —
in particular on `str.isdigit`-accepted strings of superscript digits
such as `²²²²²²`. -/
def pyInt? (s : PyStr) : Option Nat :=
  if !s.isEmpty && s.all Char.isDigit then some (decodeDigits s) else none

/-- Lower-case hexadecimal character (the alphabet of
`hashlib.md5(...).hexdigest()`). -/
def isLowerHex (c : Char) : Bool := c.isDigit || ('a' ≤ c && c ≤ 'f')

/-- The two facts about `hashlib.md5(x.encode()).hexdigest()` the code
relies on: the digest is 32 characters long and consists of lower-case
hexadecimal characters. -/
def MD5Hex (f : PyStr → PyStr) : Prop :=
  ∀ x : PyStr, (f x).length = 32 ∧ (f x).all isLowerHex = true

/-- `app/utils/security.py`, `generate_qr_code_data`: builds
`f"QRTF_\x7bfitting_batch_id\x7d_\x7bsequence_number:06d\x7d_\x7bhash_hex\x7d"`
where `hash_hex` is the first 8 characters of the md5 hexdigest of
`f"\x7bfitting_batch_id\x7d_\x7bsequence_number\x7d_\x7btimestamp\x7d"`
and `timestamp = int(time.time())`. -/
def generate_qr_code_data (md5hex : PyStr → PyStr) (fitting_batch_id : PyStr)
    (sequence_number : Nat) (timestamp : Nat) : PyStr :=
  let data_string :=
    fitting_batch_id ++ "_".toList ++ pyStr sequence_number ++ "_".toList ++ pyStr timestamp
  let hash_hex := (md5hex data_string).take 8
  "QRTF_".toList ++ fitting_batch_id ++ "_".toList ++ pad6 sequence_number ++ "_".toList ++ hash_hex

/-- `app/utils/qr_code.py`, `validate_qr_code_data`: prefix check, split
into exactly 4 underscore-separated parts, 6-digit sequence, 8-character
hash.  (The surrounding `try/except` is dead on `str` input: none of the
operations raises.) -/
def validate_qr_code_data (data : PyStr) : Bool :=
  if pyStartsWith "QRTF_".toList data = false then false
  else
    match pySplit '_' data with
    | [_pfx, _batch_id, sequence, hash_value] =>
      if !(pyIsDigit sequence) || sequence.length ≠ 6 then false
      else if hash_value.length ≠ 8 then false
      else true
    | _ => false

/-- Result dictionary of `extract_qr_code_info`: `valid` carries the
keys `prefix`, `batch_id`, `sequence_number`, `hash` of the
`is_valid: True` dict; `invalid` carries the `error` string of the
`is_valid: False` dict. -/
inductive QRInfo where
  | valid (pfx : PyStr) (batch_id : PyStr) (sequence_number : Nat) (hash : PyStr)
  | invalid (error : String)
deriving DecidableEq, Repr

/-- `app/utils/qr_code.py`, `extract_qr_code_info`: re-validates, splits,
converts the sequence with `int(...)`; any raised `ValueError` is caught
and turned into the `is_valid: False` dictionary. -/
def extract_qr_code_info (data : PyStr) : QRInfo :=
  if validate_qr_code_data data = true then
    match pySplit '_' data with
    | [pfx, batch_id, sequence, hash_value] =>
      match pyInt? sequence with
      | some n => .valid pfx batch_id n hash_value
      | none => .invalid "invalid literal for int"
    | _ => .invalid "unexpected split arity"
  else .invalid "Invalid QR code data format"

/-- `app/utils/security.py`, `validate_gps_coordinates`
(`-90 <= lat <= 90 and -180 <= lng <= 180`), floats modelled as `ℚ`. -/
def validate_gps_coordinates (lat lng : ℚ) : Bool :=
  decide (-90 ≤ lat) && decide (lat ≤ 90) && decide (-180 ≤ lng) && decide (lng ≤ 180)

/-! ## Persistent state and API endpoints

MongoDB collections are modelled as Lean lists in insertion order:
`find_one(filter)` is `List.find?` (first document matching the filter),
`insert_one` appends at the end, `update_one(filter, set)` rewrites the
first matching document (`updateFirst` below).  `ObjectId`s minted by
`insert_one` are modelled by a counter `nextId` carried in the state.
The authentication dependency and the `check_permissions` guard are not
modelled: every endpoint below is taken for an authorised caller
(`current_user` appears only through its `userId` audit value).
`datetime.utcnow()` audit/timestamp fields and the rendered QR images
(base64 PNG) are passive payload and are omitted from the documents. -/

/-- Rewrite the first element satisfying `p` (model of Mongo
`update_one` with a `$set`). -/
def updateFirst (p : α → Bool) (f : α → α) : List α → List α
  | [] => []
  | x :: xs => if p x then f x :: xs else x :: updateFirst p f xs

/-- GPS coordinate pair of an installation request. -/
structure GPS where
  lat : ℚ
  lng : ℚ
deriving DecidableEq, Repr

/-- Document of the `qr_codes` collection (fields written by
`generate_batch_qr_codes` / touched by the installation endpoints). -/
structure QRCodeDoc where
  id : Nat
  qrCode : PyStr
  fittingBatchId : PyStr
  sequenceNumber : Nat
  status : String
  markingMachineId : Option String
  markingOperatorId : Option String
  createdBy : String
  installedBy : Option String
deriving DecidableEq, Repr

/-- Document of the `fitting_installations` collection. -/
structure InstallationDoc where
  id : Nat
  qrCodeId : Nat
  zoneId : String
  divisionId : Option String
  stationId : Option String
  trackSection : String
  kilometerPost : Option String
  installationCoordinates : Option GPS
  installedBy : String
  status : String
  remarks : Option String
  updatedBy : Option String
  replacedBy : Option String
  retiredBy : Option String
deriving DecidableEq, Repr

/-- Document of the `fitting_batches` collection (only the identity and
the field the QR generation endpoint writes back). -/
structure BatchDoc where
  id : PyStr
  qrCodesGenerated : Option Int
deriving DecidableEq, Repr

/-- The collections the three endpoints under verification touch, plus
the `ObjectId` counter. -/
structure AppState where
  fitting_batches : List BatchDoc
  qr_codes : List QRCodeDoc
  fitting_installations : List InstallationDoc
  nextId : Nat
deriving DecidableEq, Repr

/-- `HTTPException`s raised by the endpoints: 400, 404, and the generic
`except`-clause 500. -/
inductive ApiError where
  | badRequest (detail : String)
  | notFound (detail : String)
  | internal (detail : String)
deriving DecidableEq, Repr

/-- The `valid_statuses` list of `update_installation_status`. -/
def valid_statuses : List String :=
  ["installed", "in_service", "maintenance_due", "replaced", "retired"]

/-- The loop body of `generate_batch_qr_codes`: the `quantity` documents
inserted into `qr_codes`, sequence numbers `i + 1` for
`i in range(quantity)`, status `generated`, ids minted from `startId`. -/
def newQRCodeDocs (md5hex : PyStr → PyStr) (timestamp : Nat) (fittingBatchId : PyStr)
    (n : Nat) (markingMachineId markingOperatorId : Option String) (userId : String)
    (startId : Nat) : List QRCodeDoc :=
  (List.range n).map (fun i =>
    { id := startId + i
      qrCode := generate_qr_code_data md5hex fittingBatchId (i + 1) timestamp
      fittingBatchId := fittingBatchId
      sequenceNumber := i + 1
      status := "generated"
      markingMachineId := markingMachineId
      markingOperatorId := markingOperatorId
      createdBy := userId
      installedBy := none : QRCodeDoc })

/-- The insert loop of `generate_batch_qr_codes` against the unique
index on `qr_codes.qrCode` (created by `database.py` at startup via
`init_db` in `main.py`'s lifespan): `insert_one` runs document by
document, and the first insert whose `qrCode` equals an already stored
one raises `DuplicateKeyError`, aborting the loop — the earlier inserts
are kept, since there is no transaction.  Returns the resulting
collection and whether every insert succeeded. -/
def insertAllUnique : List QRCodeDoc → List QRCodeDoc → List QRCodeDoc × Bool
  | [], qrs => (qrs, true)
  | d :: ds, qrs =>
    if qrs.any (fun q => q.qrCode == d.qrCode) then (qrs, false)
    else insertAllUnique ds (qrs ++ [d])

/-- `app/routers/qr_codes.py`, `POST /api/qr-codes/generate-batch`
(`generate_batch_qr_codes`): requires a batch id, bounds the quantity,
requires the batch to exist, then inserts `quantity` documents with
sequence numbers `1..quantity` (each code from `generate_qr_code_data`).
Each `insert_one` is subject to the unique index on `qrCode`: a
`DuplicateKeyError` propagates to the generic `except` clause, which
answers HTTP 500 (`Failed to generate QR codes`) with the documents
inserted before the failure kept and the batch update skipped.  On full
success the `qrCodesGenerated` count is set on the batch and the
inserted documents are returned.  `md5hex` and `timestamp` stand for
`hashlib.md5(...).hexdigest()` and `int(time.time())` inside
`generate_qr_code_data`; `time.time()` has whole-second granularity, so
a single `timestamp` for the loop models a call that completes within
one second.  The result is the post-call state paired with the HTTP
outcome (minted `ObjectId`s are opaque; the id counter advances by the
batch size on either path). -/
def generate_batch_qr_codes (md5hex : PyStr → PyStr) (timestamp : Nat)
    (fittingBatchId : PyStr) (quantity : Int)
    (markingMachineId markingOperatorId : Option String) (userId : String)
    (st : AppState) : AppState × Except ApiError (List QRCodeDoc) :=
  if fittingBatchId = [] then (st, .error (.badRequest "Fitting batch ID is required"))
  else if quantity ≤ 0 ∨ quantity > 10000 then
    (st, .error (.badRequest "Quantity must be between 1 and 10000"))
  else
    match st.fitting_batches.find? (fun b => b.id == fittingBatchId) with
    | none => (st, .error (.notFound "Fitting batch not found"))
    | some _ =>
      match insertAllUnique (newQRCodeDocs md5hex timestamp fittingBatchId quantity.toNat
          markingMachineId markingOperatorId userId st.nextId) st.qr_codes with
      | (qrs, false) =>
        ({ st with qr_codes := qrs, nextId := st.nextId + quantity.toNat },
         .error (.internal "Failed to generate QR codes"))
      | (qrs, true) =>
        ({ st with
            qr_codes := qrs
            nextId := st.nextId + quantity.toNat
            fitting_batches := updateFirst (fun b => b.id == fittingBatchId)
              (fun b => { b with qrCodesGenerated := some quantity }) st.fitting_batches },
         .ok (newQRCodeDocs md5hex timestamp fittingBatchId quantity.toNat
           markingMachineId markingOperatorId userId st.nextId))

/-- Coordinate guard of `create_installation`: Python runs the range
check only when `installation_coordinates` is truthy. -/
def coordsOk : Option GPS → Bool
  | some c => validate_gps_coordinates c.lat c.lng
  | none => true

/-- The installation document inserted by `create_installation`. -/
def newInstallationDoc (qid : Nat) (z : String) (divisionId stationId : Option String)
    (ts : String) (kilometerPost : Option String) (coords : Option GPS)
    (remarks : Option String) (userId : String) (newId : Nat) : InstallationDoc :=
  { id := newId
    qrCodeId := qid
    zoneId := z
    divisionId := divisionId
    stationId := stationId
    trackSection := ts
    kilometerPost := kilometerPost
    installationCoordinates := coords
    installedBy := userId
    status := "installed"
    remarks := remarks
    updatedBy := none
    replacedBy := none
    retiredBy := none }

/-- State after the write phase of `create_installation`: the new
installation appended and the QR document set to `installed`. -/
def installationCreatedState (doc : InstallationDoc) (userId : String)
    (st : AppState) : AppState :=
  { st with
    fitting_installations := st.fitting_installations ++ [doc]
    nextId := st.nextId + 1
    qr_codes := updateFirst (fun q => q.id == doc.qrCodeId)
      (fun q => { q with status := "installed", installedBy := some userId })
      st.qr_codes }

/-- `app/routers/installations.py`, `POST /api/installations`
(`create_installation`): requires `qrCodeId`, `zoneId`, `trackSection`;
validates coordinates when present; requires the QR code document to
exist (its `status` is not inspected); rejects when an installation
already references the QR code; otherwise inserts the installation with
status `installed`, sets the QR document status to `installed`, and
returns the re-fetched installation. -/
def create_installation (qrCodeId : Option Nat)
    (zoneId divisionId stationId trackSection kilometerPost : Option String)
    (installationCoordinates : Option GPS) (remarks : Option String)
    (userId : String) (st : AppState) : Except ApiError (AppState × InstallationDoc) :=
  match qrCodeId with
  | none => .error (.badRequest "QR code ID is required")
  | some qid =>
    match zoneId with
    | none => .error (.badRequest "Zone ID is required")
    | some z =>
      match trackSection with
      | none => .error (.badRequest "Track section is required")
      | some ts =>
        if coordsOk installationCoordinates = false then
          .error (.badRequest "Invalid GPS coordinates")
        else
          match st.qr_codes.find? (fun q => q.id == qid) with
          | none => .error (.notFound "QR code not found")
          | some _ =>
            match st.fitting_installations.find? (fun i => i.qrCodeId == qid) with
            | some _ => .error (.badRequest "QR code is already installed")
            | none =>
              match (installationCreatedState
                  (newInstallationDoc qid z divisionId stationId ts kilometerPost
                    installationCoordinates remarks userId st.nextId) userId
                  st).fitting_installations.find? (fun i => i.id == st.nextId) with
              | some created =>
                .ok (installationCreatedState
                  (newInstallationDoc qid z divisionId stationId ts kilometerPost
                    installationCoordinates remarks userId st.nextId) userId st, created)
              | none => .error (.internal "Failed to create installation")

/-- The `$set` document built by `update_installation_status` for the
installation: status, audit fields, optional remarks, and the
`replaced`/`retired` branch markers. -/
def applyStatusUpdate (s : String) (remarks : Option String) (userId : String)
    (i : InstallationDoc) : InstallationDoc :=
  let i := { i with status := s, updatedBy := some userId }
  let i := match remarks with
    | some r => { i with remarks := some r }
    | none => i
  if s = "replaced" then { i with replacedBy := some userId }
  else if s = "retired" then { i with retiredBy := some userId }
  else i

/-- State after the write phase of `update_installation_status`: the
installation rewritten through `applyStatusUpdate` and the `$set` of the
same status on the QR document with id `qrId`. -/
def statusUpdatedState (installation_id : Nat) (s : String) (remarks : Option String)
    (userId : String) (qrId : Nat) (st : AppState) : AppState :=
  { st with
    fitting_installations := updateFirst (fun i => i.id == installation_id)
      (applyStatusUpdate s remarks userId) st.fitting_installations
    qr_codes := updateFirst (fun q => q.id == qrId)
      (fun q => { q with status := s }) st.qr_codes }

/-- `app/routers/installations.py`, `PUT /api/installations/:id/status`
(`update_installation_status`): requires a status value from
`valid_statuses` and an existing installation; updates the installation
document, then sets the same status on the QR document referenced by
the installation `qrCodeId`; returns the re-fetched installation.  The
current status of the installation is never inspected: no transition
table is consulted. -/
def update_installation_status (installation_id : Nat) (newStatus : Option String)
    (remarks : Option String) (userId : String)
    (st : AppState) : Except ApiError (AppState × InstallationDoc) :=
  match newStatus with
  | none => .error (.badRequest "Status is required")
  | some s =>
    if valid_statuses.contains s = false then
      .error (.badRequest "Invalid status")
    else
      match st.fitting_installations.find? (fun i => i.id == installation_id) with
      | none => .error (.notFound "Installation not found")
      | some inst =>
        match (statusUpdatedState installation_id s remarks userId inst.qrCodeId
            st).fitting_installations.find? (fun i => i.id == installation_id) with
        | some updated =>
          .ok (statusUpdatedState installation_id s remarks userId inst.qrCodeId st, updated)
        | none => .error (.internal "Failed to update installation status")

/-! ## Lemmas on the decimal-string layer -/

theorem natDigits_fuel : ∀ f₁ f₂ n, n < f₁ → n < f₂ → natDigits f₁ n = natDigits f₂ n := by
  intro f₁
  induction f₁ with
  | zero => intro f₂ n h; omega
  | succ g ih =>
    intro f₂ n h₁ h₂
    cases f₂ with
    | zero => omega
    | succ k =>
      by_cases hn : n < 10
      · simp [natDigits, hn]
      · have hd : n / 10 < n := Nat.div_lt_self (by omega) (by omega)
        simp only [natDigits, hn, if_false]
        rw [ih k (n / 10) (by omega) (by omega)]

theorem digitChar_isDigit {m : Nat} (h : m < 10) : (Nat.digitChar m).isDigit = true := by
  interval_cases m <;> decide

theorem natDigits_all_digit : ∀ f n, n < f → (natDigits f n).all Char.isDigit = true := by
  intro f
  induction f with
  | zero => intro n h; omega
  | succ g ih =>
    intro n h
    by_cases hn : n < 10
    · simp [natDigits, hn, digitChar_isDigit hn]
    · have hd : n / 10 < n := Nat.div_lt_self (by omega) (by omega)
      simp only [natDigits, hn, if_false, List.all_append]
      rw [ih (n / 10) (by omega)]
      simp [digitChar_isDigit (Nat.mod_lt n (by omega) : n % 10 < 10)]

theorem pyStr_all_digit (n : Nat) : (pyStr n).all Char.isDigit = true :=
  natDigits_all_digit (n + 1) n (Nat.lt_succ_self n)

theorem natDigits_ne_nil : ∀ f n, n < f → natDigits f n ≠ [] := by
  intro f n h
  cases f with
  | zero => omega
  | succ g =>
    by_cases hn : n < 10 <;> simp [natDigits, hn]

theorem pyStr_ne_nil (n : Nat) : pyStr n ≠ [] :=
  natDigits_ne_nil (n + 1) n (Nat.lt_succ_self n)

theorem decodeDigits_append_singleton (l : PyStr) (c : Char) :
    decodeDigits (l ++ [c]) = decodeDigits l * 10 + digitVal c := by
  simp [decodeDigits, List.foldl_append]

theorem digitVal_digitChar {m : Nat} (h : m < 10) : digitVal (Nat.digitChar m) = m := by
  interval_cases m <;> decide

theorem decodeDigits_natDigits : ∀ f n, n < f → decodeDigits (natDigits f n) = n := by
  intro f
  induction f with
  | zero => intro n h; omega
  | succ g ih =>
    intro n h
    by_cases hn : n < 10
    · simp [natDigits, hn, decodeDigits, digitVal_digitChar hn]
    · have hd : n / 10 < n := Nat.div_lt_self (by omega) (by omega)
      simp only [natDigits, hn, if_false]
      rw [decodeDigits_append_singleton, ih (n / 10) (by omega),
        digitVal_digitChar (Nat.mod_lt n (by omega) : n % 10 < 10)]
      omega

theorem decodeDigits_pyStr (n : Nat) : decodeDigits (pyStr n) = n :=
  decodeDigits_natDigits (n + 1) n (Nat.lt_succ_self n)

theorem foldl_decode_replicate_zero (k : Nat) :
    List.foldl (fun a c => a * 10 + digitVal c) 0 (List.replicate k '0') = 0 := by
  induction k with
  | zero => rfl
  | succ m ih => simpa [List.replicate_succ, digitVal] using ih

theorem decodeDigits_replicate_zero_append (k : Nat) (l : PyStr) :
    decodeDigits (List.replicate k '0' ++ l) = decodeDigits l := by
  simp [decodeDigits, List.foldl_append, foldl_decode_replicate_zero]

theorem decodeDigits_pad6 (n : Nat) : decodeDigits (pad6 n) = n := by
  rw [pad6, decodeDigits_replicate_zero_append, decodeDigits_pyStr]

theorem pad6_injective {m n : Nat} (h : pad6 m = pad6 n) : m = n := by
  have := congrArg decodeDigits h
  rwa [decodeDigits_pad6, decodeDigits_pad6] at this

theorem pad6_all_digit (n : Nat) : (pad6 n).all Char.isDigit = true := by
  have h0 : (List.replicate (6 - (pyStr n).length) '0').all Char.isDigit = true := by
    rw [List.all_eq_true]
    intro c hc
    rw [List.eq_of_mem_replicate hc]
    decide
  rw [pad6, List.all_append, h0, pyStr_all_digit]
  decide

theorem not_underscore_of_all_digit {l : PyStr} (h : l.all Char.isDigit = true) : '_' ∉ l := by
  intro hm
  rw [List.all_eq_true] at h
  have := h _ hm
  simp at this

theorem pad6_no_underscore (n : Nat) : '_' ∉ pad6 n :=
  not_underscore_of_all_digit (pad6_all_digit n)

theorem pad6_ne_nil (n : Nat) : pad6 n ≠ [] := by
  rw [pad6]
  intro h
  exact pyStr_ne_nil n (List.append_eq_nil.mp h).2

theorem pad6_isEmpty (n : Nat) : (pad6 n).isEmpty = false := by
  cases hp : pad6 n with
  | nil => exact absurd hp (pad6_ne_nil n)
  | cons a l => rfl

theorem pyInt?_pad6 (n : Nat) : pyInt? (pad6 n) = some n := by
  rw [pyInt?, pad6_isEmpty n, pad6_all_digit n]
  simp [decodeDigits_pad6]

theorem all_pyDigitChar_of_all_isDigit {l : PyStr} (h : l.all Char.isDigit = true) :
    l.all pyDigitChar = true := by
  rw [List.all_eq_true] at h ⊢
  intro c hc
  rw [pyDigitChar, h c hc]
  rfl

theorem natDigits_length_le : ∀ f n k, n < f → 1 ≤ k → n < 10 ^ k →
    (natDigits f n).length ≤ k := by
  intro f
  induction f with
  | zero => intro n k h; omega
  | succ g ih =>
    intro n k h hk hnk
    by_cases hn : n < 10
    · simp [natDigits, hn]; omega
    · have hd : n / 10 < n := Nat.div_lt_self (by omega) (by omega)
      have hk2 : 2 ≤ k := by
        by_contra hc
        have : k = 1 := by omega
        subst this
        simp at hnk
        omega
      have hdiv : n / 10 < 10 ^ (k - 1) := by
        rw [Nat.div_lt_iff_lt_mul (by omega : 0 < 10)]
        have : 10 ^ (k - 1) * 10 = 10 ^ k := by
          rw [← Nat.pow_succ]
          congr 1
          omega
        omega
      simp only [natDigits, hn, if_false, List.length_append, List.length_cons,
        List.length_nil]
      have := ih (n / 10) (k - 1) (by omega) (by omega) hdiv
      omega

theorem pad6_length {n : Nat} (h : n < 1000000) : (pad6 n).length = 6 := by
  have hle : (pyStr n).length ≤ 6 :=
    natDigits_length_le (n + 1) n 6 (Nat.lt_succ_self n) (by omega) (by omega)
  rw [pad6, List.length_append, List.length_replicate]
  omega

/-! ## Lemmas on splitting at underscores -/

theorem pySplit_ne_nil (sep : Char) : ∀ l : PyStr, pySplit sep l ≠ [] := by
  intro l
  cases l with
  | nil => simp [pySplit]
  | cons c cs =>
    simp only [pySplit]
    cases pySplit sep cs with
    | nil => simp
    | cons p ps =>
      by_cases hc : c = sep <;> simp [hc]

theorem pySplit_no_sep {sep : Char} : ∀ {l : PyStr}, sep ∉ l → pySplit sep l = [l] := by
  intro l
  induction l with
  | nil => intro _; rfl
  | cons c cs ih =>
    intro h
    have hc : c ≠ sep := fun he => h (he ▸ List.mem_cons_self c cs)
    have hcs : sep ∉ cs := fun hm => h (List.mem_cons_of_mem c hm)
    simp only [pySplit, ih hcs]
    simp [hc]

theorem pySplit_append_sep {sep : Char} :
    ∀ {l₁ : PyStr}, sep ∉ l₁ → ∀ l₂ : PyStr, pySplit sep (l₁ ++ sep :: l₂) = l₁ :: pySplit sep l₂ := by
  intro l₁
  induction l₁ with
  | nil =>
    intro _ l₂
    simp only [List.nil_append, pySplit]
    cases hp : pySplit sep l₂ with
    | nil => exact absurd hp (pySplit_ne_nil sep l₂)
    | cons p ps => simp
  | cons c cs ih =>
    intro h l₂
    have hc : c ≠ sep := fun he => h (he ▸ List.mem_cons_self c cs)
    have hcs : sep ∉ cs := fun hm => h (List.mem_cons_of_mem c hm)
    rw [List.cons_append]
    simp only [pySplit]
    rw [ih hcs l₂]
    simp [hc]

theorem sep_split_first {sep : Char} :
    ∀ {u v p q : PyStr}, sep ∉ u → sep ∉ v → u ++ sep :: p = v ++ sep :: q → u = v ∧ p = q := by
  intro u
  induction u with
  | nil =>
    intro v p q _ hv h
    cases v with
    | nil => simpa using h
    | cons d ds =>
      simp only [List.nil_append, List.cons_append, List.cons.injEq] at h
      exact absurd (h.1 ▸ List.mem_cons_self d ds) hv
  | cons c cs ih =>
    intro v p q hu hv h
    cases v with
    | nil =>
      simp only [List.nil_append, List.cons_append, List.cons.injEq] at h
      exact absurd (h.1.symm ▸ List.mem_cons_self c cs) hu
    | cons d ds =>
      simp only [List.cons_append, List.cons.injEq] at h
      have hcs : sep ∉ cs := fun hm => hu (List.mem_cons_of_mem c hm)
      have hds : sep ∉ ds := fun hm => hv (List.mem_cons_of_mem d hm)
      obtain ⟨he, hp⟩ := ih hcs hds h.2
      exact ⟨by rw [h.1, he], hp⟩

theorem sep_split_last {sep : Char} {a b x y : PyStr} (hx : sep ∉ x) (hy : sep ∉ y)
    (h : a ++ sep :: x = b ++ sep :: y) : a = b ∧ x = y := by
  have hr := congrArg List.reverse h
  rw [List.reverse_append, List.reverse_cons, List.reverse_append, List.reverse_cons,
    List.append_assoc, List.append_assoc, List.singleton_append, List.singleton_append] at hr
  have hx' : sep ∉ x.reverse := fun hm => hx (List.mem_reverse.mp hm)
  have hy' : sep ∉ y.reverse := fun hm => hy (List.mem_reverse.mp hm)
  obtain ⟨h1, h2⟩ := sep_split_first hx' hy' hr
  constructor
  · rw [← List.reverse_reverse a, h2, List.reverse_reverse]
  · rw [← List.reverse_reverse x, h1, List.reverse_reverse]

/-! ## Lemmas on the abstracted md5 fingerprint -/

theorem md5_take8_length {f : PyStr → PyStr} (hf : MD5Hex f) (x : PyStr) :
    ((f x).take 8).length = 8 := by
  rw [List.length_take, (hf x).1]
  decide

theorem md5_take8_no_underscore {f : PyStr → PyStr} (hf : MD5Hex f) (x : PyStr) :
    '_' ∉ (f x).take 8 := by
  intro hm
  have hmem : '_' ∈ f x := List.take_subset 8 (f x) hm
  have hall := (hf x).2
  rw [List.all_eq_true] at hall
  have := hall _ hmem
  simp [isLowerHex] at this

/-! ## Structure of a generated code -/

theorem generate_qr_code_data_eq (f : PyStr → PyStr) (b : PyStr) (s t : Nat) :
    generate_qr_code_data f b s t =
      'Q' :: 'R' :: 'T' :: 'F' :: '_' ::
        (b ++ '_' :: (pad6 s ++ '_' :: (f (b ++ '_' :: (pyStr s ++ '_' :: pyStr t))).take 8)) := by
  simp only [generate_qr_code_data, List.append_assoc]
  rfl

theorem generate_split {f : PyStr → PyStr} (hf : MD5Hex f) {b : PyStr} (hb : '_' ∉ b)
    (s t : Nat) :
    pySplit '_' (generate_qr_code_data f b s t) =
      ["QRTF".toList, b, pad6 s, (f (b ++ '_' :: (pyStr s ++ '_' :: pyStr t))).take 8] := by
  rw [generate_qr_code_data_eq]
  have h4 : ('Q' :: 'R' :: 'T' :: 'F' :: '_' ::
      (b ++ '_' :: (pad6 s ++ '_' :: (f (b ++ '_' :: (pyStr s ++ '_' :: pyStr t))).take 8)) : PyStr) =
      "QRTF".toList ++ '_' ::
      (b ++ '_' :: (pad6 s ++ '_' :: (f (b ++ '_' :: (pyStr s ++ '_' :: pyStr t))).take 8)) := rfl
  rw [h4, pySplit_append_sep (by decide), pySplit_append_sep hb,
    pySplit_append_sep (pad6_no_underscore s),
    pySplit_no_sep (md5_take8_no_underscore hf _)]

theorem pyStartsWith_generate (f : PyStr → PyStr) (b : PyStr) (s t : Nat) :
    pyStartsWith "QRTF_".toList (generate_qr_code_data f b s t) = true := by
  rw [generate_qr_code_data_eq]
  rfl

theorem pyIsDigit_pad6 (n : Nat) : pyIsDigit (pad6 n) = true := by
  rw [pyIsDigit, pad6_isEmpty n, all_pyDigitChar_of_all_isDigit (pad6_all_digit n)]
  decide

theorem validate_generate {f : PyStr → PyStr} (hf : MD5Hex f) {b : PyStr} (hb : '_' ∉ b)
    {s : Nat} (hs : s < 1000000) (t : Nat) :
    validate_qr_code_data (generate_qr_code_data f b s t) = true := by
  rw [validate_qr_code_data, pyStartsWith_generate, generate_split hf hb s t]
  simp [pyIsDigit_pad6, pad6_length hs, md5_take8_length hf]

theorem extract_generate {f : PyStr → PyStr} (hf : MD5Hex f) {b : PyStr} (hb : '_' ∉ b)
    {s : Nat} (hs : s < 1000000) (t : Nat) :
    extract_qr_code_info (generate_qr_code_data f b s t) =
      .valid "QRTF".toList b s ((f (b ++ '_' :: (pyStr s ++ '_' :: pyStr t))).take 8) := by
  simp only [extract_qr_code_info, validate_generate hf hb hs t, if_true,
    generate_split hf hb s t, pyInt?_pad6]

theorem generate_injective {f : PyStr → PyStr} (hf : MD5Hex f) {b₁ b₂ : PyStr}
    {s₁ s₂ t₁ t₂ : Nat} (hne : b₁ ≠ b₂ ∨ s₁ ≠ s₂) :
    generate_qr_code_data f b₁ s₁ t₁ ≠ generate_qr_code_data f b₂ s₂ t₂ := by
  intro h
  rw [generate_qr_code_data_eq, generate_qr_code_data_eq] at h
  simp only [List.cons.injEq, true_and] at h
  have h' : (b₁ ++ '_' :: pad6 s₁) ++ '_' ::
        (f (b₁ ++ '_' :: (pyStr s₁ ++ '_' :: pyStr t₁))).take 8 =
      (b₂ ++ '_' :: pad6 s₂) ++ '_' ::
        (f (b₂ ++ '_' :: (pyStr s₂ ++ '_' :: pyStr t₂))).take 8 := by
    rw [List.append_assoc, List.append_assoc, List.cons_append, List.cons_append]
    exact h
  obtain ⟨hA, _⟩ := sep_split_last (md5_take8_no_underscore hf _)
    (md5_take8_no_underscore hf _) h'
  obtain ⟨hb, hp⟩ := sep_split_last (pad6_no_underscore s₁) (pad6_no_underscore s₂) hA
  rcases hne with hne | hne
  · exact hne hb
  · exact hne (pad6_injective hp)

/-! ## Characterisation of validation and extraction -/

theorem isEmpty_false_of_length_six {l : PyStr} (h : l.length = 6) : l.isEmpty = false := by
  cases l with
  | nil => simp at h
  | cons a t => rfl

theorem validate_body_iff (p2 p3 : PyStr) :
    (if !(pyIsDigit p2) || p2.length ≠ 6 then false
     else if p3.length ≠ 8 then false else true) = true ↔
      p2.length = 6 ∧ p2.all pyDigitChar = true ∧ p3.length = 8 := by
  by_cases h6 : p2.length = 6
  · by_cases h8 : p3.length = 8
    · have hne : p2.isEmpty = false := isEmpty_false_of_length_six h6
      cases hd : p2.all pyDigitChar with
      | false => simp [pyIsDigit, hd, h6, h8, hne]
      | true => simp [pyIsDigit, hd, h6, h8, hne]
    · simp [h6, h8]
  · simp [h6]

theorem validate_qr_code_data_iff (s : PyStr) :
    validate_qr_code_data s = true ↔
      pyStartsWith "QRTF_".toList s = true ∧
      ∃ p0 p1 p2 p3 : PyStr, pySplit '_' s = [p0, p1, p2, p3] ∧
        p2.length = 6 ∧ p2.all pyDigitChar = true ∧ p3.length = 8 := by
  rw [validate_qr_code_data]
  cases hsw : pyStartsWith "QRTF_".toList s with
  | false => simp [hsw]
  | true =>
    rw [if_neg (by simp)]
    rcases hsp : pySplit '_' s with _ | ⟨p0, _ | ⟨p1, _ | ⟨p2, _ | ⟨p3, _ | ⟨p4, rest⟩⟩⟩⟩⟩ <;>
      simp only [validate_body_iff] <;> simp [hsp]
    constructor
    · intro h
      exact ⟨p0, p1, p2, p3, ⟨rfl, rfl, rfl, rfl⟩, h⟩
    · rintro ⟨a, b, c, d, ⟨rfl, rfl, rfl, rfl⟩, h⟩
      exact h

theorem extract_invalid_of_not_validate {s : PyStr} (h : validate_qr_code_data s = false) :
    extract_qr_code_info s = .invalid "Invalid QR code data format" := by
  rw [extract_qr_code_info, h]
  simp

theorem extract_valid_imp_validate {s : PyStr}
    (h : ∃ p0 b n hs, extract_qr_code_info s = .valid p0 b n hs) :
    validate_qr_code_data s = true := by
  obtain ⟨p0, b, n, hs, he⟩ := h
  cases hv : validate_qr_code_data s with
  | true => rfl
  | false =>
    rw [extract_invalid_of_not_validate hv] at he
    exact absurd he (by simp)

theorem extract_valid_of_validate_decimal {s p0 p1 p2 p3 : PyStr}
    (hv : validate_qr_code_data s = true) (hsp : pySplit '_' s = [p0, p1, p2, p3])
    (hd : p2.all Char.isDigit = true) :
    extract_qr_code_info s = .valid p0 p1 (decodeDigits p2) p3 := by
  obtain ⟨_, q0, q1, q2, q3, hsp', h6, _, _⟩ := (validate_qr_code_data_iff s).mp hv
  rw [hsp] at hsp'
  injection hsp' with e0 hsp'
  injection hsp' with e1 hsp'
  injection hsp' with e2 hsp'
  injection hsp' with e3 _
  subst e2
  have hint : pyInt? p2 = some (decodeDigits p2) := by
    rw [pyInt?, isEmpty_false_of_length_six h6, hd]
    simp
  rw [extract_qr_code_info, hv]
  simp only [if_true, hsp, hint]

/-- The Unicode superscript digits all lie above the ASCII range, so on
ASCII characters `pyDigitChar` coincides with the decimal-digit test. -/
theorem superscriptDigit_ascii {c : Char} (h : c.toNat < 128) : superscriptDigit c = false := by
  have key : ∀ d : Char, 128 ≤ d.toNat → (c == d) = false := by
    intro d hd
    cases hcd : c == d with
    | false => rfl
    | true =>
      have he : c = d := by simpa using hcd
      subst he
      omega
  rw [superscriptDigit, key '⁰' (by decide), key '¹' (by decide), key '²' (by decide),
    key '³' (by decide), key '⁴' (by decide), key '⁵' (by decide), key '⁶' (by decide),
    key '⁷' (by decide), key '⁸' (by decide), key '⁹' (by decide)]
  rfl

theorem pyDigitChar_ascii {c : Char} (h : c.toNat < 128) : pyDigitChar c = c.isDigit := by
  rw [pyDigitChar, superscriptDigit_ascii h, Bool.or_false]

/-- Every character of every part produced by `pySplit` is a character
of the split string. -/
theorem pySplit_mem_mem {sep : Char} :
    ∀ {l p : PyStr}, p ∈ pySplit sep l → ∀ {c : Char}, c ∈ p → c ∈ l := by
  intro l
  induction l with
  | nil =>
    intro p hp c hc
    simp only [pySplit, List.mem_singleton] at hp
    subst hp
    exact absurd hc (List.not_mem_nil c)
  | cons a as ih =>
    intro p hp c hc
    rcases hsp : pySplit sep as with _ | ⟨q, qs⟩
    · exact absurd hsp (pySplit_ne_nil sep as)
    · simp only [pySplit, hsp] at hp
      by_cases ha : a = sep
      · rw [if_pos ha] at hp
        rcases List.mem_cons.mp hp with rfl | hp
        · exact absurd hc (List.not_mem_nil c)
        · have hp' : p ∈ pySplit sep as := by
            rw [hsp]
            exact hp
          exact List.mem_cons_of_mem a (ih hp' hc)
      · rw [if_neg ha] at hp
        rcases List.mem_cons.mp hp with rfl | hp
        · rcases List.mem_cons.mp hc with rfl | hc
          · exact List.mem_cons_self c as
          · have hq : q ∈ pySplit sep as := by
              rw [hsp]
              exact List.mem_cons_self q qs
            exact List.mem_cons_of_mem a (ih hq hc)
        · have hp' : p ∈ pySplit sep as := by
            rw [hsp]
            exact List.mem_cons_of_mem q hp
          exact List.mem_cons_of_mem a (ih hp' hc)

/-- On an all-ASCII string, the `str.isdigit` field test of a split part
coincides with the decimal-digit test. -/
theorem part_all_digit_iff {s p : PyStr} (hascii : ∀ c ∈ s, c.toNat < 128)
    (hp : p ∈ pySplit '_' s) : p.all pyDigitChar = p.all Char.isDigit := by
  rw [Bool.eq_iff_iff, List.all_eq_true, List.all_eq_true]
  constructor
  · intro h c hc
    rw [← pyDigitChar_ascii (hascii c (pySplit_mem_mem hp hc))]
    exact h c hc
  · intro h c hc
    rw [pyDigitChar_ascii (hascii c (pySplit_mem_mem hp hc))]
    exact h c hc

theorem extract_valid_iff_validate_ascii (s : PyStr) (hascii : ∀ c ∈ s, c.toNat < 128) :
    (∃ p0 b n h, extract_qr_code_info s = .valid p0 b n h) ↔
      validate_qr_code_data s = true := by
  constructor
  · exact extract_valid_imp_validate
  · intro hv
    obtain ⟨_, p0, p1, p2, p3, hsp, _, hd, _⟩ := (validate_qr_code_data_iff s).mp hv
    have hp2 : p2 ∈ pySplit '_' s := by
      rw [hsp]
      simp
    have hd' : p2.all Char.isDigit = true := by
      rw [← part_all_digit_iff hascii hp2]
      exact hd
    exact ⟨p0, p1, decodeDigits p2, p3, extract_valid_of_validate_decimal hv hsp hd'⟩

/-! ## State-layer lemmas -/

theorem updateFirst_find?_same {α} {p : α → Bool} {f : α → α} (hp : ∀ x, p (f x) = p x) :
    ∀ l : List α, (updateFirst p f l).find? p = (l.find? p).map f := by
  intro l
  induction l with
  | nil => rfl
  | cons x xs ih =>
    cases px : p x with
    | true =>
      rw [updateFirst, if_pos px, List.find?_cons_of_pos _ ((hp x).trans px),
        List.find?_cons_of_pos _ px, Option.map_some']
    | false =>
      have hnx : ¬(p x = true) := by
        rw [px]
        exact Bool.false_ne_true
      rw [updateFirst, if_neg hnx, List.find?_cons_of_neg _ hnx,
        List.find?_cons_of_neg _ hnx, ih]

theorem applyStatusUpdate_id (s : String) (rem : Option String) (u : String)
    (i : InstallationDoc) : (applyStatusUpdate s rem u i).id = i.id := by
  rcases rem with _ | r <;> simp only [applyStatusUpdate] <;> split_ifs <;> rfl

theorem applyStatusUpdate_qrCodeId (s : String) (rem : Option String) (u : String)
    (i : InstallationDoc) : (applyStatusUpdate s rem u i).qrCodeId = i.qrCodeId := by
  rcases rem with _ | r <;> simp only [applyStatusUpdate] <;> split_ifs <;> rfl

theorem applyStatusUpdate_status (s : String) (rem : Option String) (u : String)
    (i : InstallationDoc) : (applyStatusUpdate s rem u i).status = s := by
  rcases rem with _ | r <;> simp only [applyStatusUpdate] <;> split_ifs <;> rfl

/-- Claim C3: after every successful `update_installation_status` call with a
status `s` from the valid list, the returned installation, the stored
installation looked up by its id, and the QR-code document linked through the
installation `qrCodeId` all carry status `s` — the update is propagated to
the bound QRCodeRecord (in particular for `s = "retired"`). -/
theorem update_installation_status_propagates
    (st st' : AppState) (iid : Nat) (s : String) (rem : Option String) (u : String)
    (d : InstallationDoc) (hs : s ∈ valid_statuses)
    (h : update_installation_status iid (some s) rem u st = .ok (st', d)) :
    d.status = s ∧
    (∀ i, st'.fitting_installations.find? (fun x => x.id == iid) = some i → i.status = s) ∧
    (∀ q, st'.qr_codes.find? (fun x => x.id == d.qrCodeId) = some q → q.status = s) := by
  rw [update_installation_status] at h
  split at h
  · exact absurd h (by simp)
  · split at h
    · exact absurd h (by simp)
    · next inst hfind =>
      have hup : ∀ x : InstallationDoc,
          ((applyStatusUpdate s rem u x).id == iid) = (x.id == iid) := by
        intro x
        rw [applyStatusUpdate_id]
      split at h
      · next updated hfind2 =>
        have hkey : (statusUpdatedState iid s rem u inst.qrCodeId
            st).fitting_installations.find? (fun i => i.id == iid) =
            some (applyStatusUpdate s rem u inst) := by
          rw [statusUpdatedState]
          simp only
          rw [updateFirst_find?_same hup, hfind, Option.map_some']
        rw [hkey] at hfind2
        injection hfind2 with hupd
        simp only [Except.ok.injEq, Prod.mk.injEq] at h
        obtain ⟨hst, hd⟩ := h
        subst hst
        subst hd
        refine ⟨by rw [← hupd, applyStatusUpdate_status], ?_, ?_⟩
        · intro i hi
          rw [statusUpdatedState] at hi
          simp only at hi
          rw [updateFirst_find?_same hup, hfind, Option.map_some'] at hi
          injection hi with hi
          rw [← hi, applyStatusUpdate_status]
        · intro q hq
          have hq' : ∀ x : QRCodeDoc,
              (({ x with status := s } : QRCodeDoc).id == inst.qrCodeId) =
                (x.id == inst.qrCodeId) := fun x => rfl
          rw [← hupd, applyStatusUpdate_qrCodeId] at hq
          rw [statusUpdatedState] at hq
          simp only at hq
          rw [updateFirst_find?_same hq'] at hq
          rcases hq0 : st.qr_codes.find? (fun x => x.id == inst.qrCodeId) with _ | q0
          · rw [hq0] at hq
            exact absurd hq (by simp)
          · rw [hq0] at hq
            injection hq with hq
            rw [← hq]
      · exact absurd h (by simp)

/-! ## Concrete fixtures and runs -/

/-- Stand-in for `hashlib.md5(...).hexdigest()` used in concrete runs: a
constant 32-character lower-case hex string. -/
def f0 : PyStr → PyStr := fun _ => "0123456789abcdef0123456789abcdef".toList

theorem f0_md5hex : MD5Hex f0 := fun _ => ⟨rfl, rfl⟩

/-- Fixture: a QR document in some status bound to batch `B`. -/
def qrFix (i : Nat) (status : String) : QRCodeDoc :=
  { id := i
    qrCode := []
    fittingBatchId := "B".toList
    sequenceNumber := 1
    status := status
    markingMachineId := none
    markingOperatorId := none
    createdBy := "u0"
    installedBy := none }

/-- Fixture: an installation with id `i` bound to QR document `q`. -/
def instFix (i q : Nat) (status : String) : InstallationDoc :=
  { id := i
    qrCodeId := q
    zoneId := "Z"
    divisionId := none
    stationId := none
    trackSection := "T"
    kilometerPost := none
    installationCoordinates := none
    installedBy := "u0"
    status := status
    remarks := none
    updatedBy := none
    replacedBy := none
    retiredBy := none }

def stC3 : AppState :=
  { fitting_batches := []
    qr_codes := [qrFix 2 "installed"]
    fitting_installations := [instFix 1 2 "installed"]
    nextId := 10 }

def outC3 : AppState × InstallationDoc :=
  (update_installation_status 1 (some "maintenance_due") none "u1" stC3).toOption.getD
    (stC3, instFix 1 2 "installed")

/-- Witness for claim C3 at a concrete state: the hypotheses of
`update_installation_status_propagates` hold and the returned
installation carries the requested status. -/
theorem update_installation_status_propagates_witness :
    ("maintenance_due" ∈ valid_statuses ∧
      update_installation_status 1 (some "maintenance_due") none "u1" stC3 =
        .ok (outC3.1, outC3.2)) ∧
    outC3.2.status = "maintenance_due" :=
  ⟨⟨by decide, by rfl⟩,
    (update_installation_status_propagates stC3 outC3.1 1 "maintenance_due" none "u1" outC3.2
      (by decide) (by rfl)).1⟩

/-- Claim C4 (amended): `update_installation_status` performs no
transition-legality check.  For any existing installation — whatever its
current status, including the terminal `retired` — and any requested
status from the valid list, the call succeeds and rewrites both the
installation and the linked QR document to the requested status; only a
missing installation or a status value outside the valid list is
rejected. -/
theorem update_installation_status_no_transition_check
    (st : AppState) (iid : Nat) (s : String) (rem : Option String) (u : String)
    (inst : InstallationDoc)
    (hfind : st.fitting_installations.find? (fun i => i.id == iid) = some inst)
    (hs : s ∈ valid_statuses) :
    update_installation_status iid (some s) rem u st =
      .ok (statusUpdatedState iid s rem u inst.qrCodeId st,
           applyStatusUpdate s rem u inst) := by
  have hup : ∀ x : InstallationDoc,
      ((applyStatusUpdate s rem u x).id == iid) = (x.id == iid) := by
    intro x
    rw [applyStatusUpdate_id]
  have hkey : (statusUpdatedState iid s rem u inst.qrCodeId
      st).fitting_installations.find? (fun i => i.id == iid) =
      some (applyStatusUpdate s rem u inst) := by
    rw [statusUpdatedState]
    simp only
    rw [updateFirst_find?_same hup, hfind, Option.map_some']
  have hcon : valid_statuses.contains s = true := List.elem_eq_true_of_mem hs
  rw [update_installation_status,
    if_neg (by rw [hcon]; exact fun he => absurd he (by decide))]
  simp only [hfind]
  rw [hkey]

def stC4 : AppState :=
  { fitting_batches := []
    qr_codes := [qrFix 2 "retired"]
    fitting_installations := [instFix 1 2 "retired"]
    nextId := 10 }

/-- Counterexample to claim C4 as stated: at `stC4` the installation and
its linked QR document are both `retired`, yet the status-update request
to `in_service` is not rejected — it returns `ok` and rewrites both
documents to `in_service`. -/
theorem update_installation_status_retired_accepted :
    (update_installation_status 1 (some "in_service") none "u1" stC4).toOption.map
        (fun r => (r.2.status, r.1.fitting_installations.map (fun i => i.status),
          r.1.qr_codes.map (fun q => q.status))) =
      some ("in_service", ["in_service"], ["in_service"]) := by rfl

/-- Witness for the amended claim C4 at a concrete state whose
installation is `retired`. -/
theorem update_installation_status_no_transition_check_witness :
    (stC4.fitting_installations.find? (fun i => i.id == 1) = some (instFix 1 2 "retired") ∧
      "in_service" ∈ valid_statuses) ∧
    update_installation_status 1 (some "in_service") none "u1" stC4 =
      .ok (statusUpdatedState 1 "in_service" none "u1" (instFix 1 2 "retired").qrCodeId stC4,
           applyStatusUpdate "in_service" none "u1" (instFix 1 2 "retired")) :=
  ⟨⟨by rfl, by decide⟩,
    update_installation_status_no_transition_check stC4 1 "in_service" none "u1"
      (instFix 1 2 "retired") (by rfl) (by decide)⟩

/-- Claim C5 (amended): `create_installation` never inspects the QR
document status — it requires only that the QR document exists (in any
status, e.g. `generated`), that no installation already references it,
that the required fields are present and that the coordinates, when
given, are in range.  `hfresh` records that the id minted for the new
installation is fresh (Mongo `ObjectId` uniqueness). -/
theorem create_installation_no_status_check
    (st : AppState) (qid : Nat) (z ts : String) (dv sid kp : Option String)
    (coords : Option GPS) (rem : Option String) (u : String) (qr : QRCodeDoc)
    (hqr : st.qr_codes.find? (fun q => q.id == qid) = some qr)
    (hno : st.fitting_installations.find? (fun i => i.qrCodeId == qid) = none)
    (hfresh : st.fitting_installations.find? (fun i => i.id == st.nextId) = none)
    (hcoords : coordsOk coords = true) :
    create_installation (some qid) (some z) dv sid (some ts) kp coords rem u st =
      .ok (installationCreatedState
             (newInstallationDoc qid z dv sid ts kp coords rem u st.nextId) u st,
           newInstallationDoc qid z dv sid ts kp coords rem u st.nextId) := by
  have hkey : (installationCreatedState
      (newInstallationDoc qid z dv sid ts kp coords rem u st.nextId) u
      st).fitting_installations.find? (fun i => i.id == st.nextId) =
      some (newInstallationDoc qid z dv sid ts kp coords rem u st.nextId) := by
    rw [installationCreatedState]
    simp only
    rw [List.find?_append, hfresh]
    simp [newInstallationDoc]
  simp only [create_installation]
  rw [if_neg (by rw [hcoords]; exact fun he => absurd he (by decide))]
  simp only [hqr, hno]
  rw [hkey]

def stC5 : AppState :=
  { fitting_batches := []
    qr_codes := [qrFix 1 "generated"]
    fitting_installations := []
    nextId := 5 }

/-- Counterexample to claim C5 as stated: at `stC5` the referenced QR
document has status `generated` (not `verified`), yet `create_installation`
is not rejected — it returns `ok`, creates one installation with status
`installed`, and moves the QR document to `installed`. -/
theorem create_installation_accepts_unverified :
    (create_installation (some 1) (some "Z") none none (some "T") none none none "u1"
        stC5).toOption.map
        (fun r => (r.2.status, r.1.fitting_installations.length,
          r.1.qr_codes.map (fun q => q.status))) =
      some ("installed", 1, ["installed"]) := by rfl

/-- Witness for the amended claim C5 at the concrete state `stC5` whose
QR document is still `generated`. -/
theorem create_installation_no_status_check_witness :
    (stC5.qr_codes.find? (fun q => q.id == 1) = some (qrFix 1 "generated") ∧
      stC5.fitting_installations.find? (fun i => i.qrCodeId == 1) = none ∧
      stC5.fitting_installations.find? (fun i => i.id == stC5.nextId) = none ∧
      coordsOk none = true) ∧
    create_installation (some 1) (some "Z") none none (some "T") none none none "u1" stC5 =
      .ok (installationCreatedState
             (newInstallationDoc 1 "Z" none none "T" none none none "u1" stC5.nextId) "u1" stC5,
           newInstallationDoc 1 "Z" none none "T" none none none "u1" stC5.nextId) :=
  ⟨⟨by rfl, by rfl, by rfl, by rfl⟩,
    create_installation_no_status_check stC5 1 "Z" "T" none none none none none "u1"
      (qrFix 1 "generated") (by rfl) (by rfl) (by rfl) (by rfl)⟩

/-- Claim C6: calling `create_installation` twice with the same `qrCodeId`
yields exactly one installation.  The second call (with any well-formed
field values) is rejected with the already-installed conflict error and —
since the duplicate check precedes every write — inserts nothing; after
the first call the store holds exactly one installation for that
`qrCodeId` (there were none before, one after). -/
theorem create_installation_idempotent
    (st st₁ : AppState) (qid : Nat) (z₁ ts₁ : String) (dv₁ sid₁ kp₁ : Option String)
    (c₁ : Option GPS) (r₁ : Option String) (u₁ : String) (d : InstallationDoc)
    (h : create_installation (some qid) (some z₁) dv₁ sid₁ (some ts₁) kp₁ c₁ r₁ u₁ st =
      .ok (st₁, d))
    (z₂ ts₂ : String) (dv₂ sid₂ kp₂ : Option String) (c₂ : Option GPS) (r₂ : Option String)
    (u₂ : String) (hc₂ : coordsOk c₂ = true) :
    create_installation (some qid) (some z₂) dv₂ sid₂ (some ts₂) kp₂ c₂ r₂ u₂ st₁ =
      .error (.badRequest "QR code is already installed") ∧
    st₁.fitting_installations.countP (fun i => i.qrCodeId == qid) = 1 := by
  simp only [create_installation] at h
  split at h
  · exact absurd h (by simp)
  · split at h
    · exact absurd h (by simp)
    · next qr hq =>
      split at h
      · exact absurd h (by simp)
      · next hno =>
        split at h
        · next created hre =>
          simp only [Except.ok.injEq, Prod.mk.injEq] at h
          obtain ⟨hst, hd⟩ := h
          subst hst
          have hcount0 : st.fitting_installations.countP (fun i => i.qrCodeId == qid) = 0 := by
            rw [List.countP_eq_zero]
            intro a ha
            exact List.find?_eq_none.mp hno a ha
          have hsetter : ∀ x : QRCodeDoc,
              (({ x with status := "installed", installedBy := some u₁ } : QRCodeDoc).id == qid) =
                (x.id == qid) := fun x => rfl
          constructor
          · simp only [create_installation]
            rw [if_neg (by rw [hc₂]; exact fun he => absurd he (by decide))]
            have hq1 : (installationCreatedState
                (newInstallationDoc qid z₁ dv₁ sid₁ ts₁ kp₁ c₁ r₁ u₁ st.nextId) u₁
                st).qr_codes.find? (fun q => q.id == qid) =
                some { qr with status := "installed", installedBy := some u₁ } := by
              rw [installationCreatedState]
              simp only [newInstallationDoc]
              rw [updateFirst_find?_same hsetter, hq, Option.map_some']
            have hi1 : (installationCreatedState
                (newInstallationDoc qid z₁ dv₁ sid₁ ts₁ kp₁ c₁ r₁ u₁ st.nextId) u₁
                st).fitting_installations.find? (fun i => i.qrCodeId == qid) =
                some (newInstallationDoc qid z₁ dv₁ sid₁ ts₁ kp₁ c₁ r₁ u₁ st.nextId) := by
              rw [installationCreatedState]
              simp only
              rw [List.find?_append, hno]
              simp [newInstallationDoc]
            rw [hq1, hi1]
          · rw [installationCreatedState]
            simp only
            rw [List.countP_append, hcount0]
            simp [newInstallationDoc]
        · exact absurd h (by simp)

def stC6 : AppState :=
  { fitting_batches := []
    qr_codes := [qrFix 3 "verified"]
    fitting_installations := []
    nextId := 7 }

def outC6 : AppState × InstallationDoc :=
  (create_installation (some 3) (some "Z") none none (some "T") none none none "u1"
    stC6).toOption.getD (stC6, instFix 0 0 "x")

/-- Witness for claim C6 at a concrete state: a first successful
installation of QR document 3, then the second call is rejected with the
conflict error and exactly one installation for that `qrCodeId` remains. -/
theorem create_installation_idempotent_witness :
    (create_installation (some 3) (some "Z") none none (some "T") none none none "u1" stC6 =
        .ok (outC6.1, outC6.2) ∧ coordsOk none = true) ∧
    (create_installation (some 3) (some "Z2") none none (some "T2") none none none "u2" outC6.1 =
        .error (.badRequest "QR code is already installed") ∧
      outC6.1.fitting_installations.countP (fun i => i.qrCodeId == 3) = 1) :=
  ⟨⟨by rfl, by rfl⟩,
    create_installation_idempotent stC6 outC6.1 3 "Z" "T" none none none none none "u1"
      outC6.2 (by rfl) "Z2" "T2" none none none none none "u2" (by rfl)⟩

/-! ## Batch generation behaviour -/

theorem newQRCodeDocs_map_seq (f : PyStr → PyStr) (t : Nat) (b : PyStr) (n : Nat)
    (mm mo : Option String) (u : String) (sid : Nat) :
    (newQRCodeDocs f t b n mm mo u sid).map (fun d => d.sequenceNumber) = List.range' 1 n := by
  rw [newQRCodeDocs, List.map_map, List.range'_eq_map_range]
  simp [Function.comp, Nat.add_comm]

theorem newQRCodeDocs_filter_batch (f : PyStr → PyStr) (t : Nat) (b : PyStr) (n : Nat)
    (mm mo : Option String) (u : String) (sid : Nat) :
    (newQRCodeDocs f t b n mm mo u sid).filter (fun d => d.fittingBatchId == b) =
      newQRCodeDocs f t b n mm mo u sid := by
  rw [List.filter_eq_self]
  intro a ha
  rw [newQRCodeDocs] at ha
  obtain ⟨i, _, rfl⟩ := List.mem_map.mp ha
  simp

theorem newQRCodeDocs_map_code (f : PyStr → PyStr) (t : Nat) (b : PyStr) (n : Nat)
    (mm mo : Option String) (u : String) (sid : Nat) :
    (newQRCodeDocs f t b n mm mo u sid).map (fun d => d.qrCode) =
      (List.range n).map (fun i => generate_qr_code_data f b (i + 1) t) := by
  rw [newQRCodeDocs, List.map_map]
  rfl

theorem newQRCodeDocs_codes_nodup {f : PyStr → PyStr} (hf : MD5Hex f) (t : Nat) (b : PyStr)
    (n : Nat) (mm mo : Option String) (u : String) (sid : Nat) :
    ((newQRCodeDocs f t b n mm mo u sid).map (fun d => d.qrCode)).Nodup := by
  rw [newQRCodeDocs_map_code]
  refine List.Nodup.map_on ?_ (List.nodup_range n)
  intro i _ j _ he
  by_contra hne
  exact generate_injective hf (Or.inr (fun hs => hne (by omega))) he

theorem insertAllUnique_true : ∀ (ds qrs qrs' : List QRCodeDoc),
    insertAllUnique ds qrs = (qrs', true) → qrs' = qrs ++ ds := by
  intro ds
  induction ds with
  | nil =>
    intro qrs qrs' h
    rw [insertAllUnique] at h
    simp only [Prod.mk.injEq] at h
    rw [← h.1, List.append_nil]
  | cons d ds ih =>
    intro qrs qrs' h
    rw [insertAllUnique] at h
    split at h
    · exact absurd h (by simp)
    · rw [ih (qrs ++ [d]) qrs' h, List.append_assoc, List.singleton_append]

theorem insertAllUnique_nodup : ∀ (ds qrs : List QRCodeDoc),
    (qrs.map (fun d => d.qrCode)).Nodup →
    (((insertAllUnique ds qrs).1).map (fun d => d.qrCode)).Nodup := by
  intro ds
  induction ds with
  | nil =>
    intro qrs h
    exact h
  | cons d ds ih =>
    intro qrs h
    rw [insertAllUnique]
    split
    · exact h
    · next hany =>
      apply ih
      rw [List.map_append, List.nodup_append]
      refine ⟨h, List.nodup_singleton _, ?_⟩
      intro a ha hb
      simp only [List.map_cons, List.map_nil, List.mem_singleton] at hb
      subst hb
      obtain ⟨qd, hq, he⟩ := List.mem_map.mp ha
      exact hany (List.any_eq_true.mpr ⟨qd, hq, by rw [he]; exact beq_self_eq_true _⟩)

theorem insertAllUnique_succeeds : ∀ (ds qrs : List QRCodeDoc),
    (ds.map (fun d => d.qrCode)).Nodup →
    (∀ d ∈ ds, ∀ x ∈ qrs, x.qrCode ≠ d.qrCode) →
    insertAllUnique ds qrs = (qrs ++ ds, true) := by
  intro ds
  induction ds with
  | nil =>
    intro qrs _ _
    rw [insertAllUnique, List.append_nil]
  | cons d ds ih =>
    intro qrs hnd hfresh
    rw [insertAllUnique]
    have hany : ¬ (qrs.any (fun x => x.qrCode == d.qrCode) = true) := by
      intro hany
      obtain ⟨x, hx, hbeq⟩ := List.any_eq_true.mp hany
      exact hfresh d (List.mem_cons_self d ds) x hx (eq_of_beq hbeq)
    rw [if_neg hany]
    have h1 : (ds.map (fun x => x.qrCode)).Nodup := by
      rw [List.map_cons, List.nodup_cons] at hnd
      exact hnd.2
    have h2 : ∀ d' ∈ ds, ∀ x ∈ qrs ++ [d], x.qrCode ≠ d'.qrCode := by
      intro d' hd' x hx
      rcases List.mem_append.mp hx with hx | hx
      · exact hfresh d' (List.mem_cons_of_mem d hd') x hx
      · rw [List.mem_singleton] at hx
        subst hx
        intro he
        rw [List.map_cons, List.nodup_cons] at hnd
        apply hnd.1
        rw [he]
        exact List.mem_map.mpr ⟨d', hd', rfl⟩
    rw [ih (qrs ++ [d]) h1 h2, List.append_assoc, List.singleton_append]

/-- Claim C7 (amended): batch QR generation always numbers the inserted
documents `1..quantity`, regardless of earlier codes of the batch:
on success the inserted documents carry exactly the sequence numbers
`1..quantity`, and the batch sequence-number multiset after the call is
the one before it with `1..quantity` appended — re-invocation therefore
repeats sequence numbers instead of continuing from the prior maximum.
For a first invocation on a batch with no prior codes the set of
sequence numbers is exactly `1..quantity`. -/
theorem generate_batch_restarts_sequences
    (f : PyStr → PyStr) (t : Nat) (b : PyStr) (q : Int) (mm mo : Option String) (u : String)
    (st st' : AppState) (docs : List QRCodeDoc)
    (h : generate_batch_qr_codes f t b q mm mo u st = (st', .ok docs)) :
    docs.map (fun d => d.sequenceNumber) = List.range' 1 q.toNat ∧
    (st'.qr_codes.filter (fun d => d.fittingBatchId == b)).map (fun d => d.sequenceNumber) =
      (st.qr_codes.filter (fun d => d.fittingBatchId == b)).map (fun d => d.sequenceNumber) ++
        List.range' 1 q.toNat := by
  rw [generate_batch_qr_codes] at h
  split at h
  · exact absurd h (by simp)
  · split at h
    · exact absurd h (by simp)
    · split at h
      · exact absurd h (by simp)
      · split at h
        · exact absurd h (by simp)
        · next qrs heq =>
          simp only [Prod.mk.injEq, Except.ok.injEq] at h
          obtain ⟨hst, hd⟩ := h
          subst hst
          subst hd
          have hq : qrs = st.qr_codes ++
              newQRCodeDocs f t b q.toNat mm mo u st.nextId :=
            insertAllUnique_true _ _ _ heq
          constructor
          · exact newQRCodeDocs_map_seq f t b q.toNat mm mo u st.nextId
          · simp only
            rw [hq, List.filter_append, newQRCodeDocs_filter_batch, List.map_append,
              newQRCodeDocs_map_seq]

def stC7 : AppState :=
  { fitting_batches := [{ id := "B".toList, qrCodesGenerated := none }]
    qr_codes := []
    fitting_installations := []
    nextId := 1 }

/-- Stand-in hexdigest for the re-invocation counterexample: like the
real md5 on these two inputs (whose hexdigests differ), it
distinguishes the data string of second 100 from every other input. -/
def f1 : PyStr → PyStr := fun x =>
  if x == "B_1_100".toList then "aaaaaaaaaaaaaaaaaaaaaaaaaaaaaaaa".toList
  else "bbbbbbbbbbbbbbbbbbbbbbbbbbbbbbbb".toList

theorem f1_md5hex : MD5Hex f1 := by
  intro x
  simp only [f1]
  split <;> exact ⟨rfl, rfl⟩

/-- The batch sequence numbers present after two quantity-1 generation
calls for batch `B` at distinct timestamp seconds (100 then 200),
starting from a state with no codes: the code strings differ, so both
inserts pass the unique index. -/
def seqsC7 : Option (List Nat) :=
  match generate_batch_qr_codes f1 100 "B".toList 1 none none "u" stC7 with
  | (st1, .ok _) =>
    match generate_batch_qr_codes f1 200 "B".toList 1 none none "u" st1 with
    | (st2, .ok _) =>
      some ((st2.qr_codes.filter (fun d => d.fittingBatchId == "B".toList)).map
        (fun d => d.sequenceNumber))
    | (_, .error _) => none
  | (_, .error _) => none

/-- Counterexample to claim C7 as stated: generating one code for batch
`B` and then invoking generation again (in a later second, so the
fingerprints differ and both inserts succeed) leaves the batch with
sequence numbers `[1, 1]` — the second call restarted at 1 instead of
continuing from the prior maximum, so two records of the batch share a
sequence number and the set is not `\x7b1, 2\x7d`. -/
theorem generate_batch_reinvocation_duplicates_sequences : seqsC7 = some [1, 1] := by rfl

def outC7 : AppState × List QRCodeDoc :=
  ((generate_batch_qr_codes f0 100 "B".toList 1 none none "u" stC7).1,
   (generate_batch_qr_codes f0 100 "B".toList 1 none none "u" stC7).2.toOption.getD [])

/-- Witness for the amended claim C7 at the concrete state `stC7`. -/
theorem generate_batch_restarts_sequences_witness :
    generate_batch_qr_codes f0 100 "B".toList 1 none none "u" stC7 =
      (outC7.1, .ok outC7.2) ∧
    (outC7.2.map (fun d => d.sequenceNumber) = List.range' 1 (1 : Int).toNat ∧
      (outC7.1.qr_codes.filter (fun d => d.fittingBatchId == "B".toList)).map
          (fun d => d.sequenceNumber) =
        (stC7.qr_codes.filter (fun d => d.fittingBatchId == "B".toList)).map
          (fun d => d.sequenceNumber) ++ List.range' 1 (1 : Int).toNat) :=
  ⟨by rfl,
    generate_batch_restarts_sequences f0 100 "B".toList 1 none none "u" stC7 outC7.1 outC7.2
      (by rfl)⟩

/-- Claim C9 (amended): for a generate-batch request naming an existing
batch, the quantity validation error is raised exactly when
`quantity < 1` or `quantity > 10000` (the code tests
`quantity <= 0 or quantity > 10000`), so no in-range quantity ever
draws the quantity validation error; for an in-range quantity the call
returns the `quantity` inserted documents whenever no generated code
string collides with a stored one (in particular on first generation
for a batch).  An in-range request is not guaranteed to proceed: a
colliding code makes `insert_one` raise `DuplicateKeyError` on the
unique `qrCode` index and the call answers HTTP 500 — see the
counterexample. -/
theorem generate_batch_quantity_range
    (f : PyStr → PyStr) (hf : MD5Hex f) (t : Nat) (b : PyStr) (q : Int)
    (mm mo : Option String) (u : String) (st : AppState) (hb : b ≠ []) (bd : BatchDoc)
    (hex : st.fitting_batches.find? (fun x => x.id == b) = some bd) :
    ((generate_batch_qr_codes f t b q mm mo u st).2 =
        .error (.badRequest "Quantity must be between 1 and 10000") ↔ q < 1 ∨ q > 10000) ∧
    (1 ≤ q → q ≤ 10000 →
      (∀ d ∈ st.qr_codes, ∀ i : Nat, i < q.toNat →
        d.qrCode ≠ generate_qr_code_data f b (i + 1) t) →
      (generate_batch_qr_codes f t b q mm mo u st).2 =
        .ok (newQRCodeDocs f t b q.toNat mm mo u st.nextId)) := by
  rw [generate_batch_qr_codes, if_neg hb]
  by_cases hq : q ≤ 0 ∨ q > 10000
  · rw [if_pos hq]
    constructor
    · constructor
      · intro _
        omega
      · intro _
        rfl
    · intro h1 h2 _
      exact absurd hq (by omega)
  · rw [if_neg hq]
    simp only [hex]
    constructor
    · constructor
      · intro he
        rcases hins : insertAllUnique (newQRCodeDocs f t b q.toNat mm mo u st.nextId)
            st.qr_codes with ⟨qrs, flag⟩
        rw [hins] at he
        cases flag <;> simp at he
      · intro hr
        exact absurd (by omega : q ≤ 0 ∨ q > 10000) hq
    · intro h1 h2 hfresh
      have hcol : ∀ d ∈ newQRCodeDocs f t b q.toNat mm mo u st.nextId,
          ∀ x ∈ st.qr_codes, x.qrCode ≠ d.qrCode := by
        intro d hd x hx
        rw [newQRCodeDocs] at hd
        obtain ⟨i, hi, rfl⟩ := List.mem_map.mp hd
        exact hfresh x hx i (List.mem_range.mp hi)
      rw [insertAllUnique_succeeds _ _ (newQRCodeDocs_codes_nodup hf t b q.toNat mm mo u
        st.nextId) hcol]

def stC9 : AppState :=
  { fitting_batches := [{ id := "B".toList, qrCodesGenerated := none }]
    qr_codes := []
    fitting_installations := []
    nextId := 1 }

/-- Counterexample to claim C9 as stated ("for quantities within
[1, 10000] generation proceeds"): re-invoking generation for batch `B`
with the in-range quantity 1 in the same timestamp second reproduces
the stored code string, the insert raises `DuplicateKeyError` on the
unique `qrCode` index, and the call answers the HTTP 500 internal error
instead of proceeding. -/
theorem generate_batch_inrange_duplicate_key_500 :
    1 ≤ (1 : Int) ∧ (1 : Int) ≤ 10000 ∧
    (generate_batch_qr_codes f0 100 "B".toList 1 none none "u"
        (generate_batch_qr_codes f0 100 "B".toList 1 none none "u" stC7).1).2 =
      .error (.internal "Failed to generate QR codes") :=
  ⟨by decide, by decide, by rfl⟩

/-- Witness for the amended claim C9 at the concrete state `stC9` with
quantity 5. -/
theorem generate_batch_quantity_range_witness :
    (MD5Hex f0 ∧ "B".toList ≠ [] ∧
      stC9.fitting_batches.find? (fun x => x.id == "B".toList) =
        some { id := "B".toList, qrCodesGenerated := none }) ∧
    (((generate_batch_qr_codes f0 100 "B".toList 5 none none "u" stC9).2 =
        .error (.badRequest "Quantity must be between 1 and 10000") ↔
        (5 : Int) < 1 ∨ (5 : Int) > 10000) ∧
      (1 ≤ (5 : Int) → (5 : Int) ≤ 10000 →
        (∀ d ∈ stC9.qr_codes, ∀ i : Nat, i < (5 : Int).toNat →
          d.qrCode ≠ generate_qr_code_data f0 "B".toList (i + 1) 100) →
        (generate_batch_qr_codes f0 100 "B".toList 5 none none "u" stC9).2 =
          .ok (newQRCodeDocs f0 100 "B".toList (5 : Int).toNat none none "u" stC9.nextId))) :=
  ⟨⟨f0_md5hex, by decide, by rfl⟩,
    generate_batch_quantity_range f0 f0_md5hex 100 "B".toList 5 none none "u" stC9 (by decide)
      { id := "B".toList, qrCodesGenerated := none } (by rfl)⟩

/-! ## Code uniqueness and round-trip -/

theorem updateFirst_map {α β} (p : α → Bool) (f : α → α) (g : α → β)
    (hg : ∀ x, g (f x) = g x) : ∀ l : List α, (updateFirst p f l).map g = l.map g := by
  intro l
  induction l with
  | nil => rfl
  | cons x xs ih =>
    rw [updateFirst]
    split
    · rw [List.map_cons, List.map_cons, hg]
    · rw [List.map_cons, List.map_cons, ih]

theorem create_installation_ok_qr_codes {qc : Option Nat} {z dv sid ts kp : Option String}
    {c : Option GPS} {r : Option String} {u : String} {st st' : AppState}
    {d : InstallationDoc}
    (h : create_installation qc z dv sid ts kp c r u st = .ok (st', d)) :
    ∃ qid : Nat, st'.qr_codes = updateFirst (fun x => x.id == qid)
      (fun x => { x with status := "installed", installedBy := some u }) st.qr_codes := by
  rw [create_installation.eq_def] at h
  split at h
  · exact absurd h (by simp)
  · split at h
    · exact absurd h (by simp)
    · split at h
      · exact absurd h (by simp)
      · split at h
        · exact absurd h (by simp)
        · split at h
          · exact absurd h (by simp)
          · split at h
            · exact absurd h (by simp)
            · split at h
              · simp only [Except.ok.injEq, Prod.mk.injEq] at h
                obtain ⟨hst, _⟩ := h
                exact ⟨_, by rw [← hst]; rfl⟩
              · exact absurd h (by simp)

theorem update_installation_status_ok_qr_codes {iid : Nat} {ns rem : Option String}
    {u : String} {st st' : AppState} {d : InstallationDoc}
    (h : update_installation_status iid ns rem u st = .ok (st', d)) :
    ∃ (qrId : Nat) (s : String), st'.qr_codes = updateFirst (fun x => x.id == qrId)
      (fun x => { x with status := s }) st.qr_codes := by
  rw [update_installation_status.eq_def] at h
  split at h
  · exact absurd h (by simp)
  · split at h
    · exact absurd h (by simp)
    · split at h
      · exact absurd h (by simp)
      · split at h
        · simp only [Except.ok.injEq, Prod.mk.injEq] at h
          obtain ⟨hst, _⟩ := h
          exact ⟨_, _, by rw [← hst]; rfl⟩
        · exact absurd h (by simp)

/-- Claim C1: no two stored QR codes share a code string.  Codes built
for distinct `(batch id, sequence number)` pairs are always distinct
strings whatever the generation timestamps (the 8-character fingerprint
and the digit-only sequence field contain no underscore, so both
components are recoverable from the code), and every modelled mutating
endpoint preserves freedom from duplicate `qrCode` strings in the
`qr_codes` store: generation inserts under the unique index on
`qrCode` — an insert that would duplicate a stored code raises
`DuplicateKeyError` and stores nothing — and the installation endpoints
rewrite only status/audit fields of existing documents. -/
theorem qr_code_global_uniqueness (f : PyStr → PyStr) (hf : MD5Hex f) :
    (∀ (b₁ b₂ : PyStr) (s₁ s₂ t₁ t₂ : Nat), (b₁, s₁) ≠ (b₂, s₂) →
      generate_qr_code_data f b₁ s₁ t₁ ≠ generate_qr_code_data f b₂ s₂ t₂) ∧
    (∀ (t : Nat) (b : PyStr) (q : Int) (mm mo : Option String) (u : String) (st : AppState),
      (st.qr_codes.map (fun x => x.qrCode)).Nodup →
      (((generate_batch_qr_codes f t b q mm mo u st).1).qr_codes.map
        (fun x => x.qrCode)).Nodup) ∧
    (∀ (qc : Option Nat) (z dv sid ts kp : Option String) (c : Option GPS)
        (r : Option String) (u : String) (st st' : AppState) (d : InstallationDoc),
      create_installation qc z dv sid ts kp c r u st = .ok (st', d) →
      (st.qr_codes.map (fun x => x.qrCode)).Nodup →
      (st'.qr_codes.map (fun x => x.qrCode)).Nodup) ∧
    (∀ (iid : Nat) (ns rem : Option String) (u : String) (st st' : AppState)
        (d : InstallationDoc),
      update_installation_status iid ns rem u st = .ok (st', d) →
      (st.qr_codes.map (fun x => x.qrCode)).Nodup →
      (st'.qr_codes.map (fun x => x.qrCode)).Nodup) := by
  refine ⟨?_, ?_, ?_, ?_⟩
  · intro b₁ b₂ s₁ s₂ t₁ t₂ hne
    apply generate_injective hf
    by_cases hb : b₁ = b₂
    · subst hb
      right
      intro hs
      exact hne (by rw [hs])
    · left
      exact hb
  · intro t b q mm mo u st hnd
    rw [generate_batch_qr_codes]
    split
    · exact hnd
    · split
      · exact hnd
      · split
        · exact hnd
        · split
          · next qrs heq =>
            have h2 := insertAllUnique_nodup
              (newQRCodeDocs f t b q.toNat mm mo u st.nextId) st.qr_codes hnd
            rw [heq] at h2
            exact h2
          · next qrs heq =>
            have h2 := insertAllUnique_nodup
              (newQRCodeDocs f t b q.toNat mm mo u st.nextId) st.qr_codes hnd
            rw [heq] at h2
            exact h2
  · intro qc z dv sid ts kp c r u st st' d h hnd
    obtain ⟨qid, hq⟩ := create_installation_ok_qr_codes h
    have hmap := updateFirst_map (fun x : QRCodeDoc => x.id == qid)
      (fun x => { x with status := "installed", installedBy := some u })
      (fun x => x.qrCode) (fun x => rfl) st.qr_codes
    rw [hq, hmap]
    exact hnd
  · intro iid ns rem u st st' d h hnd
    obtain ⟨qrId, s, hq⟩ := update_installation_status_ok_qr_codes h
    have hmap := updateFirst_map (fun x : QRCodeDoc => x.id == qrId)
      (fun x => { x with status := s })
      (fun x => x.qrCode) (fun x => rfl) st.qr_codes
    rw [hq, hmap]
    exact hnd

/-- Witness for claim C1 at concrete inputs: distinct sequence numbers
of one batch give distinct codes even at the same timestamp, and a
concrete generation call preserves the duplicate-free store. -/
theorem qr_code_global_uniqueness_witness :
    MD5Hex f0 ∧
    generate_qr_code_data f0 "a".toList 1 50 ≠ generate_qr_code_data f0 "a".toList 2 50 ∧
    (((generate_batch_qr_codes f0 100 "B".toList 1 none none "u" stC7).1).qr_codes.map
      (fun x => x.qrCode)).Nodup :=
  ⟨f0_md5hex,
    (qr_code_global_uniqueness f0 f0_md5hex).1 "a".toList "a".toList 1 2 50 50 (by decide),
    (qr_code_global_uniqueness f0 f0_md5hex).2.1 100 "B".toList 1 none none "u" stC7
      (by decide)⟩

/-- Counterexample to claim C2 as stated: for the batch id `a_b`
(containing an underscore) the round-trip fails — the generated code
splits into five underscore-separated parts, so `extract_qr_code_info`
reports the invalid-format error instead of recovering batch id `a_b`
and sequence 1. -/
theorem roundtrip_fails_on_underscored_batch_id :
    extract_qr_code_info (generate_qr_code_data f0 "a_b".toList 1 0) =
      .invalid "Invalid QR code data format" := by rfl

/-- Claim C2 (amended): for every batch id containing no underscore and
every sequence number below `10^6` (so that `f"\x7bseq:06d\x7d"` is exactly 6
digits), extraction of a generated code succeeds and recovers the
original batch id and sequence number exactly. -/
theorem extract_generate_roundtrip (f : PyStr → PyStr) (hf : MD5Hex f) (b : PyStr)
    (hb : '_' ∉ b) (s : Nat) (hs : s < 1000000) (t : Nat) :
    extract_qr_code_info (generate_qr_code_data f b s t) =
      .valid "QRTF".toList b s ((f (b ++ '_' :: (pyStr s ++ '_' :: pyStr t))).take 8) :=
  extract_generate hf hb hs t

/-- Witness for the amended claim C2 at concrete inputs. -/
theorem extract_generate_roundtrip_witness :
    (MD5Hex f0 ∧ '_' ∉ "abc".toList ∧ (7 : Nat) < 1000000) ∧
    extract_qr_code_info (generate_qr_code_data f0 "abc".toList 7 99) =
      .valid "QRTF".toList "abc".toList 7
        ((f0 ("abc".toList ++ '_' :: (pyStr 7 ++ '_' :: pyStr 99))).take 8) :=
  ⟨⟨f0_md5hex, by decide, by decide⟩,
    extract_generate_roundtrip f0 f0_md5hex "abc".toList (by decide) 7 (by decide) 99⟩

/-- The scanned string of the C8/C10 counterexamples: its third
underscore-separated field consists of six superscript-two characters,
which Python `str.isdigit` accepts but `int(...)` rejects. -/
def s0Sup : PyStr := "QRTF_b_²²²²²²_aaaaaaaa".toList

/-- Counterexample to claim C8 as stated: `validate_qr_code_data`
accepts `s0Sup` although its third part is six superscript-two
characters, not six decimal digits (`str.isdigit` also accepts
Numeric_Type=Digit characters), so the claimed characterisation fails
on this input. -/
theorem validate_accepts_superscript_sequence :
    validate_qr_code_data s0Sup = true ∧
    pySplit '_' s0Sup = ["QRTF".toList, "b".toList, "²²²²²²".toList, "aaaaaaaa".toList] ∧
    ("²²²²²²".toList : PyStr).all Char.isDigit = false :=
  ⟨by rfl, by rfl, by rfl⟩

/-- Claim C8 (amended): for every all-ASCII input string — in particular
every string over the code alphabet of the wire format — the claimed
characterisation is exact: `validate_qr_code_data` accepts exactly the
strings that start with `QRTF_`, split on underscores into exactly four
parts, whose third part is exactly 6 decimal digits and whose fourth
part is exactly 8 characters; no lookup is performed.  On arbitrary
Unicode input `str.isdigit` also admits non-decimal digit characters in
the third part (see the counterexample). -/
theorem validate_qr_code_data_format_ascii (s : PyStr) (hascii : ∀ c ∈ s, c.toNat < 128) :
    validate_qr_code_data s = true ↔
      pyStartsWith "QRTF_".toList s = true ∧
      ∃ p0 p1 p2 p3 : PyStr, pySplit '_' s = [p0, p1, p2, p3] ∧
        p2.length = 6 ∧ p2.all Char.isDigit = true ∧ p3.length = 8 := by
  rw [validate_qr_code_data_iff s]
  constructor
  · rintro ⟨hsw, p0, p1, p2, p3, hsp, h6, hd, h8⟩
    have hp2 : p2 ∈ pySplit '_' s := by
      rw [hsp]
      simp
    refine ⟨hsw, p0, p1, p2, p3, hsp, h6, ?_, h8⟩
    rw [← part_all_digit_iff hascii hp2]
    exact hd
  · rintro ⟨hsw, p0, p1, p2, p3, hsp, h6, hd, h8⟩
    have hp2 : p2 ∈ pySplit '_' s := by
      rw [hsp]
      simp
    refine ⟨hsw, p0, p1, p2, p3, hsp, h6, ?_, h8⟩
    rw [part_all_digit_iff hascii hp2]
    exact hd

/-- Witness for the amended claim C8 at a concrete ASCII string. -/
theorem validate_qr_code_data_format_ascii_witness :
    (∀ c ∈ ("QRTF_abc_000001_12345678".toList : PyStr), c.toNat < 128) ∧
    (validate_qr_code_data "QRTF_abc_000001_12345678".toList = true ↔
      pyStartsWith "QRTF_".toList "QRTF_abc_000001_12345678".toList = true ∧
      ∃ p0 p1 p2 p3 : PyStr,
        pySplit '_' "QRTF_abc_000001_12345678".toList = [p0, p1, p2, p3] ∧
        p2.length = 6 ∧ p2.all Char.isDigit = true ∧ p3.length = 8) :=
  ⟨by decide, validate_qr_code_data_format_ascii "QRTF_abc_000001_12345678".toList (by decide)⟩

/-- Counterexample to claim C10 as stated: on `s0Sup` validation
succeeds, yet `int('²²²²²²')` raises `ValueError`, so
`extract_qr_code_info` returns the `is_valid: False` dictionary on a
`validate`-accepted input — the claimed equivalence fails. -/
theorem extract_invalid_on_validated_superscript :
    validate_qr_code_data s0Sup = true ∧
    extract_qr_code_info s0Sup = .invalid "invalid literal for int" :=
  ⟨by rfl, by rfl⟩

/-- Claim C10 (amended): `extract_qr_code_info` is total and never
raises.  For every all-ASCII input the `is_valid: True` result (with
prefix, batch id, integer sequence number and hash) is returned exactly
when `validate_qr_code_data` accepts; in general a valid result still
implies validation succeeded, and whenever validation fails the
`is_valid: False` dictionary with its error field is returned.  (On a
validate-accepted input whose sequence field contains non-decimal digit
characters, `int(...)` raises and the caught error is returned instead —
see the counterexample.) -/
theorem extract_qr_code_info_total (s : PyStr) :
    ((∀ c ∈ s, c.toNat < 128) →
      ((∃ p0 b n h, extract_qr_code_info s = .valid p0 b n h) ↔
        validate_qr_code_data s = true)) ∧
    ((∃ p0 b n h, extract_qr_code_info s = .valid p0 b n h) →
      validate_qr_code_data s = true) ∧
    (validate_qr_code_data s = false →
      extract_qr_code_info s = .invalid "Invalid QR code data format") :=
  ⟨fun hascii => extract_valid_iff_validate_ascii s hascii,
   extract_valid_imp_validate,
   fun h => extract_invalid_of_not_validate h⟩

/-- Witness for the amended claim C10 at a concrete ASCII string. -/
theorem extract_qr_code_info_total_witness :
    (∀ c ∈ ("QRTF_abc_000001_12345678".toList : PyStr), c.toNat < 128) ∧
    ((∃ p0 b n h,
        extract_qr_code_info "QRTF_abc_000001_12345678".toList = .valid p0 b n h) ↔
      validate_qr_code_data "QRTF_abc_000001_12345678".toList = true) :=
  ⟨by decide, (extract_qr_code_info_total "QRTF_abc_000001_12345678".toList).1 (by decide)⟩
